import Mathlib

/-! Verification model of the lueur fault-injection proxy dataplane.

Each definition below is a shallow embedding of one function of the Rust
source (file and lines are given in the doc comments).  Rust `f64` values
are modelled by `ℚ`, machine integers by `Nat` with explicit `% 2 ^ 32`
where truncation matters, fallible operations by `Except`/`Option`, and
asynchronous polls by explicit state-passing step functions whose timer
and RNG inputs are passed as arguments. -/

namespace Lueur

/-- Direction of traffic (src/lueur-cli/src/types.rs). -/
inductive Direction
  | ingress
  | egress
  | both
  deriving DecidableEq, Repr

/-- types.rs: `Direction::is_ingress`. -/
def Direction.is_ingress : Direction → Bool
  | .ingress => true
  | .both => true
  | .egress => false

/-- types.rs: `Direction::is_egress`. -/
def Direction.is_egress : Direction → Bool
  | .egress => true
  | .both => true
  | .ingress => false

/-- Which half of a tunnel an injector wraps (types.rs `StreamSide`). -/
inductive StreamSide
  | client
  | server
  deriving DecidableEq, Repr

/-- types.rs `LatencyDistribution`. -/
inductive LatencyDistribution
  | uniform
  | normal
  | pareto
  | paretoNormal
  deriving DecidableEq, Repr

/-- types.rs `BandwidthUnit`. -/
inductive BandwidthUnit
  | bps
  | kbps
  | mbps
  | gbps
  deriving DecidableEq, Repr

/-- types.rs: `BandwidthUnit::to_bytes_per_second`. -/
def BandwidthUnit.to_bytes_per_second : BandwidthUnit → Nat → Nat
  | .bps, rate => rate
  | .kbps, rate => rate * 1000
  | .mbps, rate => rate * 1000000
  | .gbps, rate => rate * 1000000000

/-- types.rs `PacketLossType`. -/
inductive PacketLossType
  | multiStateMarkov
  deriving DecidableEq, Repr

/-- config.rs `LatencySettings`, including the `side` and `global` fields
consumed by fault/latency.rs. -/
structure LatencySettings where
  distribution : LatencyDistribution
  direction : Direction
  latency_mean : ℚ
  latency_stddev : ℚ
  latency_shape : ℚ
  latency_scale : ℚ
  latency_min : ℚ
  latency_max : ℚ
  side : StreamSide
  global : Bool
  deriving DecidableEq, Repr

/-- config.rs `PacketLossSettings`. -/
structure PacketLossSettings where
  direction : Direction
  loss_type : PacketLossType
  packet_loss_rate : ℚ
  deriving DecidableEq, Repr

/-- config.rs `BandwidthSettings`. -/
structure BandwidthSettings where
  direction : Direction
  bandwidth_rate : Nat
  bandwidth_unit : BandwidthUnit
  deriving DecidableEq, Repr

/-- config.rs `JitterSettings`. -/
structure JitterSettings where
  direction : Direction
  jitter_amplitude : ℚ
  jitter_frequency : ℚ
  deriving DecidableEq, Repr

/-- config.rs `DnsSettings`. -/
structure DnsSettings where
  direction : Direction
  dns_rate : Nat
  deriving DecidableEq, Repr

/-- config.rs `FaultConfig`. -/
inductive FaultConfig
  | dns (settings : DnsSettings)
  | latency (settings : LatencySettings)
  | packetLoss (settings : PacketLossSettings)
  | bandwidth (settings : BandwidthSettings)
  | jitter (settings : JitterSettings)
  deriving DecidableEq, Repr

/-- config.rs `ProxyConfig`. -/
structure ProxyConfig where
  fault : FaultConfig
  deriving DecidableEq, Repr

/-- config.rs: `FaultConfig::default()` is a default `Latency` settings
block (uniform distribution, ingress direction, zeroed parameters). -/
def FaultConfig.defaultConfig : FaultConfig :=
  .latency ⟨.uniform, .ingress, 0, 0, 0, 0, 0, 0, .server, false⟩

/-- A built-in plugin, identified by the fault injector it hosts and the
settings it was built from (plugin/builtin/ `create_*_plugin`). -/
inductive ProxyPlugin
  | dns (settings : DnsSettings)
  | latency (settings : LatencySettings)
  | packetLoss (settings : PacketLossSettings)
  | bandwidth (settings : BandwidthSettings)
  | jitter (settings : JitterSettings)
  deriving DecidableEq, Repr

/-- plugin/builtin/mod.rs: `load_builtin_plugins` builds the plugin list
for the current fault configuration (exactly one plugin per config). -/
def load_builtin_plugins (config : ProxyConfig) : List ProxyPlugin :=
  match config.fault with
  | .dns s => [.dns s]
  | .latency s => [.latency s]
  | .packetLoss s => [.packetLoss s]
  | .bandwidth s => [.bandwidth s]
  | .jitter s => [.jitter s]

/-- proxy/mod.rs `ProxyState` (the lock-protected shared fields). -/
structure ProxyState where
  plugins : List ProxyPlugin
  shared_config : ProxyConfig
  upstream_hosts : List String
  stealth : Bool
  deriving DecidableEq, Repr

/-- proxy/mod.rs: `ProxyState::new`. -/
def ProxyState.new (stealth : Bool) : ProxyState :=
  { plugins := [],
    shared_config := ⟨FaultConfig.defaultConfig⟩,
    upstream_hosts := [],
    stealth := stealth }

/-- proxy/mod.rs lines 46-53: `ProxyState::update_plugins` takes the write
lock and `append`s the new plugins onto the existing vector. -/
def ProxyState.update_plugins (s : ProxyState) (new_plugins : List ProxyPlugin) :
    ProxyState :=
  { s with plugins := s.plugins ++ new_plugins }

/-- proxy/mod.rs: `ProxyState::update_config` overwrites the shared config. -/
def ProxyState.update_config (s : ProxyState) (new_config : ProxyConfig) :
    ProxyState :=
  { s with shared_config := new_config }

/-- proxy/mod.rs: `ProxyState::update_upstream_hosts`. -/
def ProxyState.update_upstream_hosts (s : ProxyState) (new_hosts : List String) :
    ProxyState :=
  { s with upstream_hosts := new_hosts }

/-- proxy/mod.rs lines 163-176: the body of the config-watch task for one
delivered configuration: store the new config, rebuild the builtin plugin
list from it, and hand the result to `update_plugins`. -/
def configWatchStep (s : ProxyState) (new_config : ProxyConfig) : ProxyState :=
  let s1 := s.update_config new_config
  s1.update_plugins (load_builtin_plugins s1.shared_config)

/-- The config-watch task over a whole sequence of delivered configs. -/
def configWatchRun (s : ProxyState) (configs : List ProxyConfig) : ProxyState :=
  configs.foldl configWatchStep s

/-- URL scheme as used by the proxy request path (http or https). -/
inductive Scheme
  | http
  | https
  deriving DecidableEq, Repr

/-- The parsed upstream URL: scheme, host and optional explicit port. -/
structure UpstreamUrl where
  scheme : Scheme
  host : String
  port : Option Nat
  deriving DecidableEq, Repr

/-- The url crate's `port_or_known_default`: the explicit port when given,
else 443 for https and 80 for http. -/
def portOrKnownDefault (u : UpstreamUrl) : Nat :=
  match u.port with
  | some p => p
  | none =>
      match u.scheme with
      | .https => 443
      | .http => 80

/-- proxy/mod.rs lines 267-272: `get_host` renders the upstream as
`host:port` with the default port inferred from the scheme. -/
def get_host (u : UpstreamUrl) : String :=
  u.host ++ ":" ++ toString (portOrKnownDefault u)

/-- proxy/mod.rs lines 120-129: `passthrough` starts `true` and is cleared
exactly when the upstream `host:port` is in the allow-list. -/
def decidePassthrough (hosts : List String) (upstream : UpstreamUrl) : Bool :=
  if hosts.contains (get_host upstream) then false else true

/-- Error values of errors.rs `ProxyError`, as far as the dataplane
produces them. -/
inductive ProxyErr
  | invalidConfiguration (msg : String)
  | networkError (msg : String)
  | ioError (msg : String)
  | internal (msg : String)
  | other (msg : String)
  deriving DecidableEq, Repr

/-- Runs one plugin phase over the plugin list exactly like the loops of
forward.rs: plugins are applied in list order, the thread state is the
value under transformation, and the first error stops the loop.  The
second component counts how many plugins were invoked in the phase. -/
def runPhase {α β : Type} (op : α → β → Except ProxyErr β) :
    List α → β → Except ProxyErr β × Nat
  | [], x => (.ok x, 0)
  | p :: rest, x =>
      match op p x with
      | .error e => (.error e, 1)
      | .ok y =>
          let next := runPhase op rest y
          (next.1, next.2 + 1)

/-- A forward-path plugin as consumed by forward.rs: its three phase
operations, each a fallible transformation.  Client builders, requests and
responses are abstracted to `Nat` values. -/
structure ForwardPlugin where
  prepare_client : Nat → Except ProxyErr Nat
  process_request : Nat → Except ProxyErr Nat
  process_response : Nat → Except ProxyErr Nat

/-- Result of forward.rs `Forward::execute`. -/
inductive ExecuteResult
  | ok (resp : Nat)
  | error (e : ProxyErr)
  | panicked
  deriving DecidableEq, Repr

/-- One run of `Forward::execute` together with how many plugins each
phase invoked. -/
structure ForwardRun where
  result : ExecuteResult
  prepareCount : Nat
  requestCount : Nat
  responseCount : Nat
  deriving DecidableEq, Repr

/-- forward.rs lines 66-182: `Forward::execute`.  Each plugin phase runs
only when the connection is not a passthrough.  The prepare_client loop
(lines 90-98) propagates an error with the question-mark operator; the
process_request loop (lines 116-130) calls `.unwrap()` on the plugin
result so a plugin error panics the connection task; the process_response
loop (lines 148-157) propagates the error.  The upstream call itself may
fail with a network error. -/
def forwardExecute (plugins : List ForwardPlugin) (passthrough : Bool)
    (builder body : Nat) (upstream : Nat → Except ProxyErr Nat) : ForwardRun :=
  let prepared :=
    if passthrough then ((Except.ok builder : Except ProxyErr Nat), 0)
    else runPhase (fun p => p.prepare_client) plugins builder
  match prepared.1 with
  | .error e => ⟨.error e, prepared.2, 0, 0⟩
  | .ok b =>
      let req := b + body
      let processed :=
        if passthrough then ((Except.ok req : Except ProxyErr Nat), 0)
        else runPhase (fun p => p.process_request) plugins req
      match processed.1 with
      | .error _ => ⟨.panicked, prepared.2, processed.2, 0⟩
      | .ok r =>
          match upstream r with
          | .error e => ⟨.error e, prepared.2, processed.2, 0⟩
          | .ok resp =>
              let post :=
                if passthrough then ((Except.ok resp : Except ProxyErr Nat), 0)
                else runPhase (fun p => p.process_response) plugins resp
              match post.1 with
              | .error e => ⟨.error e, prepared.2, processed.2, post.2⟩
              | .ok final => ⟨.ok final, prepared.2, processed.2, post.2⟩

/-- What the connection task of run_proxy observably does with the
forward-handler result. -/
inductive ServiceOutcome
  | response (value : Nat)
  | panicked
  deriving DecidableEq, Repr

/-- proxy/mod.rs lines 143-154: run_proxy calls forward::handle_request and
unwraps the result (the comment there reads "replace with a match"), so an
`Err` from the handler panics the connection task instead of being turned
into an HTTP error response. -/
def serviceForward (plugins : List ForwardPlugin) (passthrough : Bool)
    (builder body : Nat) (upstream : Nat → Except ProxyErr Nat) : ServiceOutcome :=
  match (forwardExecute plugins passthrough builder body upstream).result with
  | .ok v => .response v
  | .error _ => .panicked
  | .panicked => .panicked

/-- A tunnel-path plugin as consumed by tunnel.rs: the CONNECT-request
transform and the tunnel-fault injection on the two stream halves. -/
structure TunnelPlugin where
  process_connect_request : Nat → Except ProxyErr Nat
  inject_tunnel_faults : Nat × Nat → Except ProxyErr (Nat × Nat)

/-- Plugin invocation counts of one CONNECT handling. -/
structure TunnelRun where
  connectCount : Nat
  injectCount : Nat
  deriving DecidableEq, Repr

/-- tunnel.rs `handle_connect`, restricted to its plugin-consulting steps:
`process_connect_plugins` (lines 35-47) and the `inject_tunnel_faults`
fold (lines 141-169) run only when the connection is not a passthrough;
both stop at the first plugin error. -/
def tunnelPhases (plugins : List TunnelPlugin) (passthrough : Bool)
    (connectReq : Nat) (streams : Nat × Nat) : TunnelRun :=
  let connect :=
    if passthrough then ((Except.ok connectReq : Except ProxyErr Nat), 0)
    else runPhase (fun p => p.process_connect_request) plugins connectReq
  match connect.1 with
  | .error _ => ⟨connect.2, 0⟩
  | .ok _ =>
      let inject :=
        if passthrough then ((Except.ok streams : Except ProxyErr (Nat × Nat)), 0)
        else runPhase (fun p => p.inject_tunnel_faults) plugins streams
      ⟨connect.2, inject.2⟩

/-- Events a tunnel task emits on its ProxyTaskEvent handle (event.rs). -/
inductive TunnelEvent
  | responseReceived (status : Nat)
  | completed (timeTaken fromClient toServer : Nat)
  | errorEvent (message : String)
  deriving DecidableEq, Repr

/-- Result of tokio's `copy_bidirectional` over the two tunnel halves. -/
inductive CopyOutcome
  | ok (bytesFromClient bytesToServer : Nat)
  | err (message : String)
  deriving DecidableEq, Repr

/-- tunnel.rs lines 171-198: the events `handle_connect` emits from the
`copy_bidirectional` result.  On success: `on_response(0)` then
`on_completed(elapsed, bytes_from_client, bytes_to_server)`.  On failure:
`on_response(500)` then `on_completed(elapsed, 0, 0)`. -/
def tunnelCopyEvents : CopyOutcome → Nat → List TunnelEvent
  | .ok fromClient toServer, elapsed =>
      [.responseReceived 0, .completed elapsed fromClient toServer]
  | .err _, elapsed =>
      [.responseReceived 500, .completed elapsed 0 0]

/-- Whether an event is the terminal `Completed`. -/
def TunnelEvent.isCompleted : TunnelEvent → Bool
  | .completed _ _ _ => true
  | _ => false

/-- Whether an event is the terminal `Error`. -/
def TunnelEvent.isError : TunnelEvent → Bool
  | .errorEvent _ => true
  | _ => false

/-- Outcome of one poll of a bandwidth-limited half
(fault/bandwidth.rs): either the poll completes having moved `moved`
bytes (with the token count afterwards and the reported Bandwidth event
payload), or it is pending on the limiter's refill. -/
inductive BwPoll
  | ready (moved : Nat) (tokensAfter : Nat) (eventBps : Option Nat)
  | pending (tokensAfter : Nat)
  deriving DecidableEq, Repr

/-- fault/bandwidth.rs lines 210-284: `BandwidthLimitedWrite::poll_write`.
`maxWriteSize` is the configured rate in bytes/second (the bucket
capacity), `tokens` the currently available tokens, `requested` the
buffer length, and `innerWrite` the number of bytes the inner stream
writes when polled with a buffer of the given length.  The requested
write is capped at `min(max_write_size, requested)`; a zero cap (also
after the `as u32` truncation) returns `Ok(0)`; `check_n` debits the
whole capped amount when enough tokens are available, and the inner
stream is then polled with the full buffer `buf`; otherwise the poll
arms the refill delay and stays pending. -/
def bwPollWrite (maxWriteSize tokens requested : Nat)
    (innerWrite : Nat → Nat) : BwPoll :=
  let toWrite := min maxWriteSize requested
  if toWrite = 0 then .ready 0 tokens none
  else if toWrite % 2 ^ 32 = 0 then .ready 0 tokens none
  else if toWrite ≤ tokens then
    let written := innerWrite requested
    .ready written (tokens - toWrite) (some written)
  else .pending tokens

/-- fault/bandwidth.rs lines 304-385: `BandwidthLimitedRead::poll_read`.
Same token accounting as the write half, but the inner stream is polled
through a `ReadBuf` limited to the capped size `to_read`, so at most
`to_read` bytes are filled. -/
def bwPollRead (maxReadSize tokens requested : Nat)
    (innerFill : Nat → Nat) : BwPoll :=
  let toRead := min maxReadSize requested
  if toRead = 0 then .ready 0 tokens none
  else if toRead % 2 ^ 32 = 0 then .ready 0 tokens none
  else if toRead ≤ tokens then
    let filled := min (innerFill toRead) toRead
    .ready filled (tokens - toRead) (some filled)
  else .pending tokens

/-- fault/packet_loss.rs `MultiState`. -/
inductive MultiState
  | excellent
  | good
  | fair
  | poor
  | bad
  deriving DecidableEq, Repr

/-- packet_loss.rs: `MultiState::to_index`. -/
def MultiState.to_index : MultiState → Nat
  | .excellent => 0
  | .good => 1
  | .fair => 2
  | .poor => 3
  | .bad => 4

/-- packet_loss.rs: `MultiState::from_index` (default fallback `Good`). -/
def MultiState.from_index : Nat → MultiState
  | 0 => .excellent
  | 1 => .good
  | 2 => .fair
  | 3 => .poor
  | 4 => .bad
  | _ => .good

/-- The cumulative-selection loop of packet_loss.rs poll_read lines
176-188 and poll_write lines 280-292: walk the transition row
accumulating probabilities; take the first index whose cumulative value
strictly exceeds the variate; keep the fallback index when none does. -/
def nextStateIdxAux (u : ℚ) : List ℚ → ℚ → Nat → Nat → Nat
  | [], _, _, fallback => fallback
  | p :: rest, cum, i, fallback =>
      if u < cum + p then i else nextStateIdxAux u rest (cum + p) (i + 1) fallback

/-- The new chain index chosen for variate `u` given the current index. -/
def nextStateIdx (row : List ℚ) (u : ℚ) (current : Nat) : Nat :=
  nextStateIdxAux u row 0 0 current

/-- The Markov model data of packet_loss.rs `MultiStateMarkov`. -/
structure PacketLossModel where
  transition_matrix : List (List ℚ)
  loss_probabilities : List ℚ
  deriving DecidableEq, Repr

/-- packet_loss.rs `PacketLossStrategy::default()`: the fixed 5-state
transition matrix and per-state loss probabilities. -/
def defaultPacketLoss : PacketLossModel :=
  { transition_matrix :=
      [[9/10, 1/10, 0, 0, 0],
       [1/20, 9/10, 1/20, 0, 0],
       [0, 1/10, 4/5, 1/10, 0],
       [0, 0, 1/5, 7/10, 1/10],
       [0, 0, 0, 3/10, 7/10]],
    loss_probabilities := [0, 1/100, 1/20, 1/10, 1/5] }

/-- One chain advance plus the drop decision, shared by poll_read (lines
170-195) and poll_write (lines 274-299): the first variate `u1` drives
the state transition, the second `u2` is compared against the new
state's loss probability. -/
def packetLossStep (m : PacketLossModel) (s : MultiState) (u1 u2 : ℚ) :
    MultiState × Bool :=
  let row := m.transition_matrix.getD s.to_index []
  let newIdx := nextStateIdx row u1 s.to_index
  (MultiState.from_index newIdx, decide (u2 < m.loss_probabilities.getD newIdx 0))

/-- packet_loss.rs lines 160-211: `PacketLossLimitedRead::poll_read`.
`inner` is the number of bytes the underlying read would fill.  On a
drop the poll returns `Ready(Ok(()))` with zero bytes filled; otherwise
the underlying stream is polled. -/
def packetLossPollRead (m : PacketLossModel) (s : MultiState) (u1 u2 : ℚ)
    (inner : Nat) : MultiState × Nat :=
  let step := packetLossStep m s u1 u2
  if step.2 then (step.1, 0) else (step.1, inner)

/-- packet_loss.rs lines 264-313: `PacketLossLimitedWrite::poll_write`.
On a drop the poll returns `Ready(Ok(0))`; otherwise the underlying
stream is polled. -/
def packetLossPollWrite (m : PacketLossModel) (s : MultiState) (u1 u2 : ℚ)
    (inner : Nat) : MultiState × Nat :=
  let step := packetLossStep m s u1 u2
  if step.2 then (step.1, 0) else (step.1, inner)

/-- The two wrapper halves built by `PacketLossInjector::inject`: the
read and write wrappers each own their chain state. -/
structure PacketLossBidi where
  readState : MultiState
  writeState : MultiState
  deriving DecidableEq, Repr

/-- packet_loss.rs lines 131-158 and 235-262: both `new` constructors set
`initial_state = MultiState::Good`. -/
def packetLossBidiNew : PacketLossBidi := ⟨.good, .good⟩

/-- A read poll of the combined wrapper touches only the read half. -/
def bidiPollRead (m : PacketLossModel) (b : PacketLossBidi) (u1 u2 : ℚ)
    (inner : Nat) : PacketLossBidi × Nat :=
  let r := packetLossPollRead m b.readState u1 u2 inner
  ({ b with readState := r.1 }, r.2)

/-- A write poll of the combined wrapper touches only the write half. -/
def bidiPollWrite (m : PacketLossModel) (b : PacketLossBidi) (u1 u2 : ℚ)
    (inner : Nat) : PacketLossBidi × Nat :=
  let w := packetLossPollWrite m b.writeState u1 u2 inner
  ({ b with writeState := w.1 }, w.2)

/-- packet_loss.rs lines 519-560: `apply_on_response` re-reads the body
through `ReaderStream::new(PacketLossLimitedRead::new(cursor))` and
concatenates the chunks.  A poll that fills zero bytes — a drop as much
as true end-of-stream — makes the ReaderStream yield `None` and the
reassembly loop stop.  `us` is the list of variate pairs (one per
poll), `body` the response body and `cap` the ReaderStream buffer
capacity. -/
def readerStreamReassemble (m : PacketLossModel) :
    MultiState → List (ℚ × ℚ) → List Nat → Nat → List Nat
  | _, [], _, _ => []
  | s, (u1, u2) :: us, body, cap =>
      let step := packetLossStep m s u1 u2
      if step.2 then []
      else if body.isEmpty then []
      else body.take cap ++ readerStreamReassemble m step.1 us (body.drop cap) cap

/-- Pre-drawn distribution samples feeding latency.rs `get_delay`: the
successive values the Pareto, Normal and Uniform samplers would return. -/
structure LatencyDraws where
  pareto : List ℚ
  normal : List ℚ
  uniform : List ℚ
  deriving DecidableEq, Repr

/-- The rejection loop of latency.rs `get_delay` (`while sample < 0.0 {
sample = dist.sample(rng) }`): the first drawn sample that is not
negative, if the draw sequence provides one. -/
def rejectNegative (samples : List ℚ) : Option ℚ :=
  samples.find? (fun s => decide (0 ≤ s))

/-- latency.rs lines 64-151: `LatencyInjector::get_delay`.  Normal,
Pareto and Uniform take the first non-negative sample of their draw
sequence; ParetoNormal adds one rejection-sampled Pareto draw and one
rejection-sampled Normal draw.  Returns the accepted sample in
milliseconds, `none` when the draw sequence never turns non-negative. -/
def LatencyInjector.get_delay (settings : LatencySettings)
    (draws : LatencyDraws) : Option ℚ :=
  match settings.distribution with
  | .normal => rejectNegative draws.normal
  | .pareto => rejectNegative draws.pareto
  | .paretoNormal =>
      match rejectNegative draws.pareto, rejectNegative draws.normal with
      | some p, some n => some (p + n)
      | _, _ => none
  | .uniform => rejectNegative draws.uniform

/-- latency.rs delay conversion: `millis = sample.floor()`, `nanos =
round((sample - millis) * 1_000_000)`, total nanoseconds of
`Duration::from_millis(millis) + Duration::from_nanos(nanos)`. -/
def delayToNanos (sample : ℚ) : ℤ :=
  ⌊sample⌋ * 1000000 + round ((sample - ⌊sample⌋) * 1000000)

/-- Per-wrapper state of latency.rs `LatencyStreamRead` /
`LatencyStreamWrite`: the `applied_count` counter and whether a sleep
future is currently stored (`read_sleep` / `write_sleep`). -/
structure LatencyWrapperState where
  applied_count : Nat
  sleepArmed : Bool
  deriving DecidableEq, Repr

/-- latency.rs `new` (lines 396-413 and 487-504): no sleep armed,
`applied_count: 0`. -/
def latencyInitState : LatencyWrapperState := ⟨0, false⟩

/-- What one poll does with the underlying stream. -/
inductive LatencyPollAction
  | forwarded
  | pending
  deriving DecidableEq, Repr

/-- Observable effect of one poll: the wrapper state afterwards, whether
the underlying stream was polled (`forwarded`) or the poll stayed
pending on the timer, and whether a fresh delay was sampled and armed. -/
structure LatencyPollStep where
  state : LatencyWrapperState
  action : LatencyPollAction
  sampled : Bool
  deriving DecidableEq, Repr

/-- latency.rs lines 416-458: `LatencyStreamRead::poll_read`.  In global
mode with `applied_count == 1` the poll falls straight through to the
underlying stream.  Otherwise, when no sleep is armed a fresh delay is
sampled, the FaultApplied event emitted, `applied_count` incremented and
the sleep armed; the (possibly just-armed) sleep is then polled:
`sleepReady` tells whether the timer has elapsed — if so the sleep is
cleared and the underlying stream polled, else the poll is pending. -/
def latencyPollRead (global : Bool) (st : LatencyWrapperState)
    (sleepReady : Bool) : LatencyPollStep :=
  if global ∧ st.applied_count = 1 then ⟨st, .forwarded, false⟩
  else if st.sleepArmed then
    if sleepReady then ⟨⟨st.applied_count, false⟩, .forwarded, false⟩
    else ⟨st, .pending, false⟩
  else
    if sleepReady then ⟨⟨st.applied_count + 1, false⟩, .forwarded, true⟩
    else ⟨⟨st.applied_count + 1, true⟩, .pending, true⟩

/-- latency.rs lines 507-550: `LatencyStreamWrite::poll_write`, same
structure as the read half over its own `write_sleep` state. -/
def latencyPollWrite (global : Bool) (st : LatencyWrapperState)
    (sleepReady : Bool) : LatencyPollStep :=
  if global ∧ st.applied_count = 1 then ⟨st, .forwarded, false⟩
  else if st.sleepArmed then
    if sleepReady then ⟨⟨st.applied_count, false⟩, .forwarded, false⟩
    else ⟨st, .pending, false⟩
  else
    if sleepReady then ⟨⟨st.applied_count + 1, false⟩, .forwarded, true⟩
    else ⟨⟨st.applied_count + 1, true⟩, .pending, true⟩

/-- Runs a sequence of polls (each input is the timer-elapsed flag of that
poll) and counts how many fresh delays were sampled along the way. -/
def latencyRunPolls (poll : LatencyWrapperState → Bool → LatencyPollStep) :
    LatencyWrapperState → List Bool → LatencyWrapperState × Nat
  | st, [] => (st, 0)
  | st, r :: rest =>
      let s := poll st r
      let next := latencyRunPolls poll s.state rest
      (next.1, (if s.sampled then 1 else 0) + next.2)

/-- jitter.rs lines 50-56: `should_jitter` draws a uniform variate in
[0, 1) and compares it directly against the configured frequency. -/
def should_jitter (frequency u : ℚ) : Bool :=
  decide (u < frequency)

/-- jitter.rs lines 59-67: `generate_jitter` draws a whole-millisecond
delay uniformly in `0..=amplitude_millis`; the raw generator value `r`
is reduced into that range. -/
def generate_jitter (amplitudeMillis r : Nat) : Nat :=
  r % (amplitudeMillis + 1)

/-- jitter.rs `JitterStream` timer state: the optionally armed read and
write sleeps (armed delay in milliseconds). -/
structure JitterStreamState where
  read_sleep : Option Nat
  write_sleep : Option Nat
  deriving DecidableEq, Repr

/-- Observable result of one jitter poll. -/
inductive JitterPollResult
  | forwarded
  | pending
  deriving DecidableEq, Repr

/-- jitter.rs lines 148-178: `JitterStream::poll_read`.  For a matching
(ingress) direction: if a sleep is armed it is polled — pending blocks
the poll, ready clears the sleep; if none is armed, `should_jitter`
may arm a fresh delay.  In every case other than a pending armed sleep
the poll falls through to the underlying stream — including the very
poll that armed the timer. -/
def jitterPollRead (direction : Direction) (st : JitterStreamState)
    (sleepReady : Bool) (frequency u : ℚ) (amplitudeMillis r : Nat) :
    JitterStreamState × JitterPollResult :=
  if direction.is_ingress then
    match st.read_sleep with
    | some _ =>
        if sleepReady then ({ st with read_sleep := none }, .forwarded)
        else (st, .pending)
    | none =>
        if should_jitter frequency u then
          ({ st with read_sleep := some (generate_jitter amplitudeMillis r) },
           .forwarded)
        else (st, .forwarded)
  else (st, .forwarded)

/-- jitter.rs lines 181-210: `JitterStream::poll_write`, mirroring the
read half over `write_sleep` for the egress direction. -/
def jitterPollWrite (direction : Direction) (st : JitterStreamState)
    (sleepReady : Bool) (frequency u : ℚ) (amplitudeMillis r : Nat) :
    JitterStreamState × JitterPollResult :=
  if direction.is_egress then
    match st.write_sleep with
    | some _ =>
        if sleepReady then ({ st with write_sleep := none }, .forwarded)
        else (st, .pending)
    | none =>
        if should_jitter frequency u then
          ({ st with write_sleep := some (generate_jitter amplitudeMillis r) },
           .forwarded)
        else (st, .forwarded)
  else (st, .forwarded)

/-- reporting.rs `ReportItemExpectationDecision`. -/
inductive ReportDecision
  | success
  | failure
  | unknown
  deriving DecidableEq, Repr

/-- reporting.rs `ReportItemProtocol` (HTTP status code and body length). -/
inductive ReportProtocol
  | http (code : Nat) (body_length : Nat)
  deriving DecidableEq, Repr

/-- scenario.rs `ScenarioItemExpectation`. -/
structure ItemExpectation where
  status : Option Nat
  response_time_under : Option ℚ
  deriving DecidableEq, Repr

/-- The metric fields of reporting.rs `ReportItemMetrics` consumed by the
expectation evaluation. -/
structure ItemMetrics where
  protocol : Option ReportProtocol
  total_time : ℚ
  deriving DecidableEq, Repr

/-- Either a reported decision or a panic of the evaluation code. -/
inductive ExpectationOutcome
  | decided (decision : ReportDecision)
  | panicked
  deriving DecidableEq, Repr

/-- scenario.rs lines 159-217: the expectation evaluation of
`execute_item`.  `met` starts as `None`; a captured HTTP protocol metric
together with a declared status predicate sets `met = Some(status ==
code)`; only when `met == Some(true)` is the response-time predicate
consulted; finally the code branches on `met.unwrap()`, which panics
when `met` is still `None` (no protocol metric, or no status predicate
declared). -/
def evaluate_expectation (r : ItemExpectation) (metrics : ItemMetrics) :
    ExpectationOutcome :=
  let met0 : Option Bool :=
    match metrics.protocol with
    | some (.http code _) =>
        match r.status with
        | some v => some (v == code)
        | none => none
    | none => none
  let met1 : Option Bool :=
    if met0 = some true then
      match r.response_time_under with
      | some v => some (decide (metrics.total_time ≤ v))
      | none => met0
    else met0
  match met1 with
  | some true => .decided .success
  | some false => .decided .failure
  | none => .panicked

/-- Plugin whose three forward phases succeed without changing the value. -/
def idPlugin : ForwardPlugin :=
  ⟨fun b => .ok b, fun r => .ok r, fun r => .ok r⟩

/-- Plugin whose `process_request` fails. -/
def errRequestPlugin : ForwardPlugin :=
  ⟨fun b => .ok b, fun _ => .error (.other "request fault"), fun r => .ok r⟩

/-- Plugin whose `prepare_client` fails. -/
def errPreparePlugin : ForwardPlugin :=
  ⟨fun _ => .error (.internal "prepare fault"), fun r => .ok r, fun r => .ok r⟩

/-- Plugin whose `process_response` fails. -/
def errResponsePlugin : ForwardPlugin :=
  ⟨fun b => .ok b, fun r => .ok r, fun _ => .error (.networkError "response fault")⟩

/-- The cumulative-selection loop returns the first index whose cumulative
prefix (on top of the accumulator `cum`) strictly exceeds the variate. -/
theorem nextStateIdxAux_first (u : ℚ) :
    ∀ (l : List ℚ) (cum : ℚ) (i fallback j : Nat),
      j < l.length →
      u < cum + ((l.take (j + 1)).sum) →
      (∀ k, k < j → ¬ u < cum + ((l.take (k + 1)).sum)) →
      nextStateIdxAux u l cum i fallback = i + j := by
  intro l
  induction l with
  | nil =>
      intro cum i fallback j hj
      simp at hj
  | cons p rest ih =>
      intro cum i fallback j hj hu hleast
      cases j with
      | zero =>
          have hp : u < cum + p := by simpa using hu
          simp [nextStateIdxAux, hp]
      | succ j =>
          have h0 : ¬ u < cum + p := by
            simpa using hleast 0 (Nat.succ_pos j)
          have hj2 : j < rest.length := by
            simpa using Nat.lt_of_succ_lt_succ hj
          have hu2 : u < (cum + p) + ((rest.take (j + 1)).sum) := by
            have hsum : ((p :: rest).take (j + 1 + 1)).sum
                = p + ((rest.take (j + 1)).sum) := by
              simp [List.take_succ_cons]
            rw [hsum] at hu
            rw [add_assoc]
            exact hu
          have hleast2 : ∀ k, k < j → ¬ u < (cum + p) + ((rest.take (k + 1)).sum) := by
            intro k hk
            have h := hleast (k + 1) (Nat.succ_lt_succ hk)
            have hsum : ((p :: rest).take (k + 1 + 1)).sum
                = p + ((rest.take (k + 1)).sum) := by
              simp [List.take_succ_cons]
            rw [hsum] at h
            intro hcon
            apply h
            rw [← add_assoc]
            exact hcon
          calc nextStateIdxAux u (p :: rest) cum i fallback
              = nextStateIdxAux u rest (cum + p) (i + 1) fallback := by
                simp [nextStateIdxAux, h0]
            _ = (i + 1) + j := ih (cum + p) (i + 1) fallback j hj2 hu2 hleast2
            _ = i + (j + 1) := by omega

/-- When no cumulative prefix exceeds the variate, the loop never breaks
and the fallback (current) index is kept. -/
theorem nextStateIdxAux_keep (u : ℚ) :
    ∀ (l : List ℚ) (cum : ℚ) (i fallback : Nat),
      (∀ j, j < l.length → ¬ u < cum + ((l.take (j + 1)).sum)) →
      nextStateIdxAux u l cum i fallback = fallback := by
  intro l
  induction l with
  | nil =>
      intro cum i fallback _
      rfl
  | cons p rest ih =>
      intro cum i fallback h
      have h0 : ¬ u < cum + p := by
        simpa using h 0 (by simp)
      have h2 : ∀ j, j < rest.length → ¬ u < (cum + p) + ((rest.take (j + 1)).sum) := by
        intro j hj
        have hh := h (j + 1) (by simpa using Nat.succ_lt_succ hj)
        have hsum : ((p :: rest).take (j + 1 + 1)).sum
            = p + ((rest.take (j + 1)).sum) := by
          simp [List.take_succ_cons]
        rw [hsum] at hh
        intro hcon
        apply hh
        rw [← add_assoc]
        exact hcon
      simp only [nextStateIdxAux, h0, if_false]
      exact ih (cum + p) (i + 1) fallback h2

/-- The body reassembled through the packet-loss ReaderStream is an
initial segment of the original body. -/
theorem readerStreamReassemble_append (m : PacketLossModel) :
    ∀ (us : List (ℚ × ℚ)) (s : MultiState) (body : List Nat) (cap : Nat),
      ∃ t, readerStreamReassemble m s us body cap ++ t = body := by
  intro us
  induction us with
  | nil =>
      intro s body cap
      exact ⟨body, by simp [readerStreamReassemble]⟩
  | cons p rest ih =>
      intro s body cap
      obtain ⟨u1, u2⟩ := p
      by_cases hd : (packetLossStep m s u1 u2).2 = true
      · exact ⟨body, by simp [readerStreamReassemble, hd]⟩
      · by_cases hb : body.isEmpty
        · exact ⟨body, by simp [readerStreamReassemble, hd, hb]⟩
        · obtain ⟨t, ht⟩ := ih (packetLossStep m s u1 u2).1 (body.drop cap) cap
          refine ⟨t, ?_⟩
          simp only [readerStreamReassemble, hd, hb, if_false, Bool.false_eq_true]
          rw [List.append_assoc, ht, List.take_append_drop]

/-- A non-negative result of the rejection loop. -/
theorem rejectNegative_nonneg {samples : List ℚ} {d : ℚ}
    (h : rejectNegative samples = some d) : 0 ≤ d := by
  have hfind := List.find?_some h
  exact of_decide_eq_true hfind

/-- The millisecond-plus-nanosecond conversion of a non-negative sample
is non-negative. -/
theorem delayToNanos_nonneg {q : ℚ} (h : 0 ≤ q) : 0 ≤ delayToNanos q := by
  unfold delayToNanos
  have h1 : 0 ≤ ⌊q⌋ := Int.floor_nonneg.mpr h
  have hfr : (⌊q⌋ : ℚ) ≤ q := Int.floor_le q
  have h3 : 0 ≤ round ((q - ⌊q⌋) * 1000000) := by
    rw [round_eq]
    apply Int.floor_nonneg.mpr
    have hx : (0 : ℚ) ≤ (q - ⌊q⌋) * 1000000 := by
      have : (0 : ℚ) ≤ q - ⌊q⌋ := by linarith
      positivity
    linarith
  have h4 : 0 ≤ ⌊q⌋ * 1000000 := by positivity
  omega

/-- In global mode, once `applied_count` is 1 a read poll never draws a
fresh delay again. -/
theorem latencyRunPolls_global_stop :
    ∀ (inputs : List Bool) (st : LatencyWrapperState), st.applied_count = 1 →
      (latencyRunPolls (latencyPollRead true) st inputs).2 = 0 := by
  intro inputs
  induction inputs with
  | nil =>
      intro st _
      rfl
  | cons r rest ih =>
      intro st h
      have hstep : latencyPollRead true st r = ⟨st, .forwarded, false⟩ := by
        simp [latencyPollRead, h]
      simp [latencyRunPolls, hstep, ih st h]

/-- Write-half version of `latencyRunPolls_global_stop`. -/
theorem latencyRunPolls_global_stop_write :
    ∀ (inputs : List Bool) (st : LatencyWrapperState), st.applied_count = 1 →
      (latencyRunPolls (latencyPollWrite true) st inputs).2 = 0 := by
  intro inputs
  induction inputs with
  | nil =>
      intro st _
      rfl
  | cons r rest ih =>
      intro st h
      have hstep : latencyPollWrite true st r = ⟨st, .forwarded, false⟩ := by
        simp [latencyPollWrite, h]
      simp [latencyRunPolls, hstep, ih st h]

/-- C1: on a configuration change the watch task appends the plugins
rebuilt from the new ProxyConfig to the existing list instead of
replacing it: after two deliveries the plugins built from the first
configuration are still in the list, so the list does not equal the list
rebuilt from the new configuration alone. -/
theorem config_watch_step_appends_previous_plugins :
    (∀ (s : ProxyState) (cfg : ProxyConfig),
        (configWatchStep s cfg).plugins = s.plugins ++ load_builtin_plugins cfg)
    ∧ (configWatchRun (ProxyState.new false)
          [⟨.dns ⟨.ingress, 50⟩⟩, ⟨.bandwidth ⟨.ingress, 1000, .bps⟩⟩]).plugins
        = [.dns ⟨.ingress, 50⟩, .bandwidth ⟨.ingress, 1000, .bps⟩]
    ∧ (configWatchRun (ProxyState.new false)
          [⟨.dns ⟨.ingress, 50⟩⟩, ⟨.bandwidth ⟨.ingress, 1000, .bps⟩⟩]).plugins
        ≠ load_builtin_plugins ⟨.bandwidth ⟨.ingress, 1000, .bps⟩⟩ := by
  refine ⟨?_, ?_, ?_⟩
  · intro s cfg
    rfl
  · rfl
  · decide

/-- C2 counterexample: at the concrete failed bidirectional copy, the
tunnel handler emits no Error event and does emit Completed, refuting
"a failed copy emits Error (never Completed)". -/
theorem tunnel_failed_copy_emits_completed_not_error :
    ¬ (((tunnelCopyEvents (.err "connection reset by peer") 7).any
          TunnelEvent.isError) = true
       ∧ ((tunnelCopyEvents (.err "connection reset by peer") 7).any
          TunnelEvent.isCompleted) = false) := by
  decide

/-- C2 (amended): the copy-result handling of the CONNECT tunnel emits
exactly one terminal Completed event and never an Error event: a
successful copy emits ResponseReceived(0) then Completed with the byte
counts, and a failed copy emits ResponseReceived(500) then Completed
with zero byte counts. -/
theorem tunnel_copy_terminal_events :
    ∀ (r : CopyOutcome) (elapsed : Nat),
      (tunnelCopyEvents r elapsed).countP TunnelEvent.isCompleted = 1
      ∧ (tunnelCopyEvents r elapsed).any TunnelEvent.isError = false
      ∧ (∀ a b, r = .ok a b →
          tunnelCopyEvents r elapsed
            = [.responseReceived 0, .completed elapsed a b])
      ∧ (∀ msg, r = .err msg →
          tunnelCopyEvents r elapsed
            = [.responseReceived 500, .completed elapsed 0 0]) := by
  intro r elapsed
  cases r with
  | ok fc ts =>
      refine ⟨?_, ?_, ?_, ?_⟩
      · simp [tunnelCopyEvents, List.countP_cons, List.countP_nil,
          TunnelEvent.isCompleted]
      · simp [tunnelCopyEvents, TunnelEvent.isError]
      · intro a b h
        cases h
        rfl
      · intro msg h
        simp at h
  | err msg0 =>
      refine ⟨?_, ?_, ?_, ?_⟩
      · simp [tunnelCopyEvents, List.countP_cons, List.countP_nil,
          TunnelEvent.isCompleted]
      · simp [tunnelCopyEvents, TunnelEvent.isError]
      · intro a b h
        simp at h
      · intro msg h
        cases h
        rfl

/-- Witness for the tunnel terminal-event law at a concrete successful
copy. -/
theorem tunnel_copy_terminal_events_witness :
    tunnelCopyEvents (.ok 3 5) 7 = [.responseReceived 0, .completed 7 3 5] :=
  (tunnel_copy_terminal_events (.ok 3 5) 7).2.2.1 3 5 rfl

/-- C3: when a plugin phase fails on a faulted forward request, no later
plugin runs in that phase, but the handler never produces an HTTP
502/500 error response: a process_request error is unwrapped and panics
the connection task, and prepare_client / process_response errors
propagate to run_proxy, which unwraps them — the task panics in every
case and no error response or task event is produced. -/
theorem forward_plugin_error_short_circuits_and_panics :
    (forwardExecute [errRequestPlugin, idPlugin] false 0 5 (fun r => .ok r)).requestCount = 1
    ∧ (forwardExecute [errRequestPlugin, idPlugin] false 0 5 (fun r => .ok r)).result
        = .panicked
    ∧ serviceForward [errRequestPlugin, idPlugin] false 0 5 (fun r => .ok r) = .panicked
    ∧ (forwardExecute [errPreparePlugin, idPlugin] false 0 5 (fun r => .ok r)).prepareCount = 1
    ∧ serviceForward [errPreparePlugin, idPlugin] false 0 5 (fun r => .ok r) = .panicked
    ∧ (forwardExecute [errResponsePlugin, idPlugin] false 0 5 (fun r => .ok r)).responseCount = 1
    ∧ serviceForward [errResponsePlugin, idPlugin] false 0 5 (fun r => .ok r) = .panicked := by
  exact ⟨rfl, rfl, rfl, rfl, rfl, rfl, rfl⟩

/-- C4 counterexample: the bucket is debited by the capped requested
amount, not by the bytes actually moved.  Reading 8 requested bytes with
10 tokens while the inner stream yields only 5 bytes leaves 2 tokens
(debit 8), not the 5 tokens the claim predicts; and a write of 20
requested bytes against a 10-byte/s limiter moves all 20 bytes because
the inner stream is polled with the full buffer, exceeding the
min(requested, bucket) cap. -/
theorem bandwidth_read_debits_capped_request_not_bytes_moved :
    bwPollRead 10 10 8 (fun _ => 5) = .ready 5 2 (some 5)
    ∧ bwPollRead 10 10 8 (fun _ => 5) ≠ .ready 5 5 (some 5)
    ∧ bwPollWrite 10 10 20 (fun n => n) = .ready 20 0 (some 20) := by
  refine ⟨rfl, by decide, rfl⟩

/-- C4 (amended): each poll caps the request at min(requested, rate);
when the bucket does not hold the whole capped amount (in particular
when zero tokens are available) the poll arms a refill delay and stays
pending without transferring; when it does, the bucket is debited by the
capped amount before the transfer — not by the bytes actually moved —
and a Bandwidth event reporting the actual moved byte count is emitted;
the read half fills at most the capped amount, while the write half
polls the inner stream with the full buffer. -/
theorem bandwidth_poll_token_accounting :
    (∀ (maxR tokens req : Nat) (fill : Nat → Nat),
        0 < min maxR req → min maxR req % 2 ^ 32 ≠ 0 →
          (tokens = 0 → bwPollRead maxR tokens req fill = .pending 0)
          ∧ (min maxR req ≤ tokens →
              bwPollRead maxR tokens req fill =
                .ready (min (fill (min maxR req)) (min maxR req))
                  (tokens - min maxR req)
                  (some (min (fill (min maxR req)) (min maxR req))))
          ∧ (tokens < min maxR req → bwPollRead maxR tokens req fill = .pending tokens))
    ∧ (∀ (maxW tokens req : Nat) (w : Nat → Nat),
        0 < min maxW req → min maxW req % 2 ^ 32 ≠ 0 →
          (tokens = 0 → bwPollWrite maxW tokens req w = .pending 0)
          ∧ (min maxW req ≤ tokens →
              bwPollWrite maxW tokens req w =
                .ready (w req) (tokens - min maxW req) (some (w req)))
          ∧ (tokens < min maxW req → bwPollWrite maxW tokens req w = .pending tokens)) := by
  constructor
  · intro maxR tokens req fill hpos hmod
    have hne : ¬ min maxR req = 0 := by omega
    refine ⟨?_, ?_, ?_⟩
    · intro h0
      subst h0
      have hnle : ¬ min maxR req ≤ 0 := by omega
      simp only [bwPollRead, if_neg hne, if_neg hmod, if_neg hnle]
    · intro hle
      simp only [bwPollRead, if_neg hne, if_neg hmod, if_pos hle]
    · intro hlt
      have hnle : ¬ min maxR req ≤ tokens := by omega
      simp only [bwPollRead, if_neg hne, if_neg hmod, if_neg hnle]
  · intro maxW tokens req w hpos hmod
    have hne : ¬ min maxW req = 0 := by omega
    refine ⟨?_, ?_, ?_⟩
    · intro h0
      subst h0
      have hnle : ¬ min maxW req ≤ 0 := by omega
      simp only [bwPollWrite, if_neg hne, if_neg hmod, if_neg hnle]
    · intro hle
      simp only [bwPollWrite, if_neg hne, if_neg hmod, if_pos hle]
    · intro hlt
      have hnle : ¬ min maxW req ≤ tokens := by omega
      simp only [bwPollWrite, if_neg hne, if_neg hmod, if_neg hnle]

/-- Witness for the bandwidth poll characterization at a concrete input. -/
theorem bandwidth_poll_token_accounting_witness :
    bwPollRead 4 9 6 (fun n => n) = .ready 4 5 (some 4) := by
  have h := (bandwidth_poll_token_accounting.1 4 9 6 (fun n => n)
    (by decide) (by decide)).2.1 (by decide)
  exact h

/-- C5: the packet-loss Markov poll advances to the first state whose
cumulative transition prefix exceeds the first variate (keeping the
current state when none does), the second variate against the new
state's loss probability decides the drop, a dropped read fills zero
bytes and a dropped write reports a successful zero-byte write, the
initial state of both wrapper halves is Good, and read and write
wrappers keep independent chain states. -/
theorem packet_loss_markov_poll_semantics :
    (∀ (row : List ℚ) (u : ℚ) (current j : Nat),
        j < row.length →
        u < ((row.take (j + 1)).sum) →
        (∀ k, k < j → ¬ u < ((row.take (k + 1)).sum)) →
        nextStateIdx row u current = j)
    ∧ (∀ (row : List ℚ) (u : ℚ) (current : Nat),
        (∀ j, j < row.length → ¬ u < ((row.take (j + 1)).sum)) →
        nextStateIdx row u current = current)
    ∧ (∀ (m : PacketLossModel) (s : MultiState) (u1 u2 : ℚ) (inner : Nat),
        (packetLossStep m s u1 u2).2 = true →
          packetLossPollRead m s u1 u2 inner = ((packetLossStep m s u1 u2).1, 0)
          ∧ packetLossPollWrite m s u1 u2 inner = ((packetLossStep m s u1 u2).1, 0))
    ∧ (∀ (m : PacketLossModel) (s : MultiState) (u1 u2 : ℚ),
        (packetLossStep m s u1 u2).2
          = decide (u2 < m.loss_probabilities.getD
              (nextStateIdx (m.transition_matrix.getD s.to_index []) u1 s.to_index) 0))
    ∧ (packetLossBidiNew.readState = .good ∧ packetLossBidiNew.writeState = .good)
    ∧ (∀ (m : PacketLossModel) (b : PacketLossBidi) (u1 u2 : ℚ) (inner : Nat),
        (bidiPollRead m b u1 u2 inner).1.writeState = b.writeState
        ∧ (bidiPollWrite m b u1 u2 inner).1.readState = b.readState) := by
  refine ⟨?_, ?_, ?_, ?_, ⟨rfl, rfl⟩, ?_⟩
  · intro row u current j hj hu hleast
    have h := nextStateIdxAux_first u row 0 0 current j hj
      (by simpa using hu)
      (by intro k hk; simpa using hleast k hk)
    simpa [nextStateIdx] using h
  · intro row u current hnone
    have h := nextStateIdxAux_keep u row 0 0 current
      (by intro j hj; simpa using hnone j hj)
    simpa [nextStateIdx] using h
  · intro m s u1 u2 inner hdrop
    constructor
    · simp [packetLossPollRead, hdrop]
    · simp [packetLossPollWrite, hdrop]
  · intro m s u1 u2
    rfl
  · intro m b u1 u2 inner
    exact ⟨rfl, rfl⟩

/-- Witness for the chain-advance characterization: from state index 0
with row (0.9, 0.1, 0, 0, 0) and variate 0.95, the chain moves to the
first index whose cumulative prefix exceeds 0.95, namely 1. -/
theorem packet_loss_markov_poll_semantics_witness :
    nextStateIdx [(9 : ℚ)/10, 1/10, 0, 0, 0] (95/100) 0 = 1 := by
  apply packet_loss_markov_poll_semantics.1 [(9 : ℚ)/10, 1/10, 0, 0, 0] (95/100) 0 1
  · decide
  · norm_num [List.take_succ_cons, List.sum_cons]
  · intro k hk
    have hk0 : k = 0 := by omega
    subst hk0
    norm_num [List.take_succ_cons, List.sum_cons]

/-- C6: every delay accepted by the rejection-sampling loops of
`get_delay` is non-negative (and so is its millisecond/nanosecond
rendering), ParetoNormal is the sum of the independently
rejection-sampled Pareto and Normal draws, in global mode each wrapper
half samples exactly one delay over any poll sequence and once
`applied_count` is 1 every poll falls through to the underlying stream,
while in non-global mode a fresh delay is sampled on every poll that
finds no timer armed and a pending armed timer blocks the poll without
touching the underlying stream. -/
theorem latency_delay_and_poll_semantics :
    (∀ (s : LatencySettings) (draws : LatencyDraws) (d : ℚ),
        LatencyInjector.get_delay s draws = some d → 0 ≤ d ∧ 0 ≤ delayToNanos d)
    ∧ (∀ (s : LatencySettings) (draws : LatencyDraws) (p n : ℚ),
        s.distribution = .paretoNormal →
        rejectNegative draws.pareto = some p →
        rejectNegative draws.normal = some n →
        LatencyInjector.get_delay s draws = some (p + n))
    ∧ (∀ inputs : List Bool,
        (latencyRunPolls (latencyPollRead true) latencyInitState inputs).2
          = min 1 inputs.length)
    ∧ (∀ inputs : List Bool,
        (latencyRunPolls (latencyPollWrite true) latencyInitState inputs).2
          = min 1 inputs.length)
    ∧ (∀ (st : LatencyWrapperState) (ready : Bool),
        st.applied_count = 1 →
          latencyPollRead true st ready = ⟨st, .forwarded, false⟩
          ∧ latencyPollWrite true st ready = ⟨st, .forwarded, false⟩)
    ∧ (∀ (st : LatencyWrapperState) (ready : Bool),
        st.sleepArmed = false →
          (latencyPollRead false st ready).sampled = true
          ∧ (latencyPollWrite false st ready).sampled = true)
    ∧ (∀ st : LatencyWrapperState,
        st.sleepArmed = true →
          latencyPollRead false st false = ⟨st, .pending, false⟩
          ∧ latencyPollWrite false st false = ⟨st, .pending, false⟩) := by
  refine ⟨?_, ?_, ?_, ?_, ?_, ?_, ?_⟩
  · intro s draws d h
    unfold LatencyInjector.get_delay at h
    cases hdist : s.distribution <;> rw [hdist] at h
    case uniform =>
      exact ⟨rejectNegative_nonneg h, delayToNanos_nonneg (rejectNegative_nonneg h)⟩
    case normal =>
      exact ⟨rejectNegative_nonneg h, delayToNanos_nonneg (rejectNegative_nonneg h)⟩
    case pareto =>
      exact ⟨rejectNegative_nonneg h, delayToNanos_nonneg (rejectNegative_nonneg h)⟩
    case paretoNormal =>
      cases hp : rejectNegative draws.pareto with
      | none =>
          rw [hp] at h
          simp at h
      | some p =>
          cases hn : rejectNegative draws.normal with
          | none =>
              rw [hp, hn] at h
              simp at h
          | some n =>
              rw [hp, hn] at h
              have hd : p + n = d := Option.some.inj h
              have h0 : 0 ≤ p + n :=
                add_nonneg (rejectNegative_nonneg hp) (rejectNegative_nonneg hn)
              rw [← hd]
              exact ⟨h0, delayToNanos_nonneg h0⟩
  · intro s draws p n hdist hp hn
    simp [LatencyInjector.get_delay, hdist, hp, hn]
  · intro inputs
    cases inputs with
    | nil => rfl
    | cons r rest =>
        cases r with
        | false =>
            have h := latencyRunPolls_global_stop rest ⟨1, true⟩ rfl
            simp [latencyRunPolls, latencyPollRead, latencyInitState, h]
        | true =>
            have h := latencyRunPolls_global_stop rest ⟨1, false⟩ rfl
            simp [latencyRunPolls, latencyPollRead, latencyInitState, h]
  · intro inputs
    cases inputs with
    | nil => rfl
    | cons r rest =>
        cases r with
        | false =>
            have h := latencyRunPolls_global_stop_write rest ⟨1, true⟩ rfl
            simp [latencyRunPolls, latencyPollWrite, latencyInitState, h]
        | true =>
            have h := latencyRunPolls_global_stop_write rest ⟨1, false⟩ rfl
            simp [latencyRunPolls, latencyPollWrite, latencyInitState, h]
  · intro st ready h
    constructor
    · simp [latencyPollRead, h]
    · simp [latencyPollWrite, h]
  · intro st ready h
    constructor
    · cases ready <;> simp [latencyPollRead, h]
    · cases ready <;> simp [latencyPollWrite, h]
  · intro st h
    constructor
    · simp [latencyPollRead, h]
    · simp [latencyPollWrite, h]

/-- Witness for the latency delay law: a Normal configuration whose draw
sequence yields 2 produces the non-negative delay 2. -/
theorem latency_delay_and_poll_semantics_witness :
    0 ≤ (2 : ℚ) ∧ 0 ≤ delayToNanos 2 :=
  latency_delay_and_poll_semantics.1
    ⟨.normal, .ingress, 100, 0, 0, 0, 0, 0, .server, false⟩
    ⟨[], [2], []⟩ 2 (by norm_num [LatencyInjector.get_delay, rejectNegative])

/-- C7 counterexample: on the very poll that arms the jitter timer
(ingress direction, no timer armed, variate 0 under frequency 1, raw
draw 3 against amplitude 10), the resulting state holds an armed timer
and yet the poll was forwarded to the underlying stream, refuting
"while the timer is armed the underlying stream is not polled". -/
theorem jitter_arming_poll_still_polls_underlying :
    ((jitterPollRead .ingress ⟨none, none⟩ false 1 0 10 3).1.read_sleep = some 3)
    ∧ (jitterPollRead .ingress ⟨none, none⟩ false 1 0 10 3).2 = .forwarded
    ∧ ¬ ((jitterPollRead .ingress ⟨none, none⟩ false 1 0 10 3).1.read_sleep = none
         ∨ (jitterPollRead .ingress ⟨none, none⟩ false 1 0 10 3).2
             = JitterPollResult.pending) := by
  refine ⟨?_, ?_, ?_⟩
  · norm_num [jitterPollRead, should_jitter, generate_jitter, Direction.is_ingress]
  · norm_num [jitterPollRead, should_jitter, generate_jitter, Direction.is_ingress]
  · norm_num [jitterPollRead, should_jitter, generate_jitter, Direction.is_ingress]
    exact ⟨by simp, by simp⟩

/-- C7 (amended): on each matching-direction poll with no timer armed,
the variate is compared directly against the configured frequency (there
is no poll-interval factor), so a delay drawn uniformly from
[0, amplitude] in whole milliseconds is armed with per-poll probability
min(1, frequency); the arming poll itself still polls the underlying
stream; on later polls a pending armed timer returns Pending without
polling the underlying stream, a completed timer is cleared and the poll
forwarded; polls in a non-matching direction are forwarded unchanged. -/
theorem jitter_poll_semantics :
    (∀ (st : JitterStreamState) (ready : Bool) (freq u : ℚ) (amp r : Nat),
        jitterPollRead .egress st ready freq u amp r = (st, .forwarded))
    ∧ (∀ (d : Direction) (st : JitterStreamState) (ready : Bool) (freq u : ℚ)
          (amp r : Nat),
        d.is_ingress = true → st.read_sleep = none → u < freq →
          jitterPollRead d st ready freq u amp r
            = ({ st with read_sleep := some (generate_jitter amp r) }, .forwarded))
    ∧ (∀ (d : Direction) (st : JitterStreamState) (ready : Bool) (freq u : ℚ)
          (amp r : Nat),
        d.is_ingress = true → st.read_sleep = none → ¬ u < freq →
          jitterPollRead d st ready freq u amp r = (st, .forwarded))
    ∧ (∀ (d : Direction) (st : JitterStreamState) (delay : Nat) (freq u : ℚ)
          (amp r : Nat),
        d.is_ingress = true → st.read_sleep = some delay →
          jitterPollRead d st false freq u amp r = (st, .pending))
    ∧ (∀ (d : Direction) (st : JitterStreamState) (delay : Nat) (freq u : ℚ)
          (amp r : Nat),
        d.is_ingress = true → st.read_sleep = some delay →
          jitterPollRead d st true freq u amp r
            = ({ st with read_sleep := none }, .forwarded))
    ∧ (∀ amp r : Nat, generate_jitter amp r ≤ amp)
    ∧ (∀ freq u : ℚ, should_jitter freq u = true ↔ u < freq)
    ∧ (∀ (d : Direction) (st : JitterStreamState) (delay : Nat) (freq u : ℚ)
          (amp r : Nat),
        d.is_egress = true → st.write_sleep = some delay →
          jitterPollWrite d st false freq u amp r = (st, .pending))
    ∧ (∀ (d : Direction) (st : JitterStreamState) (ready : Bool) (freq u : ℚ)
          (amp r : Nat),
        d.is_egress = true → st.write_sleep = none → u < freq →
          jitterPollWrite d st ready freq u amp r
            = ({ st with write_sleep := some (generate_jitter amp r) }, .forwarded)) := by
  refine ⟨?_, ?_, ?_, ?_, ?_, ?_, ?_, ?_, ?_⟩
  · intro st ready freq u amp r
    simp [jitterPollRead, Direction.is_ingress]
  · intro d st ready freq u amp r hd hs hu
    simp [jitterPollRead, hd, hs, should_jitter, hu]
  · intro d st ready freq u amp r hd hs hu
    simp [jitterPollRead, hd, hs, should_jitter, hu]
  · intro d st delay freq u amp r hd hs
    simp [jitterPollRead, hd, hs]
  · intro d st delay freq u amp r hd hs
    simp [jitterPollRead, hd, hs]
  · intro amp r
    exact Nat.le_of_lt_succ (Nat.mod_lt _ (Nat.succ_pos amp))
  · intro freq u
    simp [should_jitter]
  · intro d st delay freq u amp r hd hs
    simp [jitterPollWrite, hd, hs]
  · intro d st ready freq u amp r hd hs hu
    simp [jitterPollWrite, hd, hs, should_jitter, hu]

/-- Witness for the jitter poll laws: a pending armed read timer blocks
the poll without touching the underlying stream. -/
theorem jitter_poll_semantics_witness :
    jitterPollRead .ingress ⟨some 5, none⟩ false 1 0 10 3
      = (⟨some 5, none⟩, .pending) :=
  jitter_poll_semantics.2.2.2.1 .ingress ⟨some 5, none⟩ 5 1 0 10 3 rfl rfl

/-- C8: a connection is faulted (passthrough is cleared) exactly when the
upstream host:port — with the default port inferred from the scheme — is
in the current allow-list, and a passthrough connection invokes no
plugin operation in any phase: client preparation, request and response
transforms in the forward path, CONNECT-request processing and tunnel
wrapping in the tunnel path. -/
theorem allow_list_decision_and_passthrough_no_plugins :
    (∀ (hosts : List String) (u : UpstreamUrl),
        (decidePassthrough hosts u = false ↔ get_host u ∈ hosts))
    ∧ (∀ (hosts : List String) (u : UpstreamUrl) (plugins : List ForwardPlugin)
          (builder body : Nat) (upstream : Nat → Except ProxyErr Nat),
        decidePassthrough hosts u = true →
          (forwardExecute plugins (decidePassthrough hosts u) builder body
              upstream).prepareCount = 0
          ∧ (forwardExecute plugins (decidePassthrough hosts u) builder body
              upstream).requestCount = 0
          ∧ (forwardExecute plugins (decidePassthrough hosts u) builder body
              upstream).responseCount = 0)
    ∧ (∀ (hosts : List String) (u : UpstreamUrl) (plugins : List TunnelPlugin)
          (creq : Nat) (streams : Nat × Nat),
        decidePassthrough hosts u = true →
          tunnelPhases plugins (decidePassthrough hosts u) creq streams = ⟨0, 0⟩)
    ∧ (∀ u : UpstreamUrl, u.port = none →
        get_host u = u.host ++ ":"
          ++ toString (match u.scheme with | .https => 443 | .http => 80)) := by
  refine ⟨?_, ?_, ?_, ?_⟩
  · intro hosts u
    by_cases hc : get_host u ∈ hosts
    · have hb : hosts.contains (get_host u) = true := by
        simpa using hc
      simp [decidePassthrough, hb, hc]
    · have hb : hosts.contains (get_host u) = false := by
        simpa using hc
      simp [decidePassthrough, hb, hc]
  · intro hosts u plugins builder body upstream h
    rw [h]
    refine ⟨?_, ?_, ?_⟩ <;>
      cases hu : upstream (builder + body) <;> simp [forwardExecute, hu]
  · intro hosts u plugins creq streams h
    rw [h]
    rfl
  · intro u h
    simp [get_host, portOrKnownDefault, h]

/-- Witness for the allow-list decision: a host not in the list yields a
passthrough connection and a forward execution that invokes no plugin. -/
theorem allow_list_decision_and_passthrough_no_plugins_witness :
    (forwardExecute [⟨fun b => .ok b, fun r => .ok r, fun r => .ok r⟩]
        (decidePassthrough ["example.com:443"] ⟨.http, "internal.test", none⟩)
        0 0 (fun v => .ok v)).prepareCount = 0
    ∧ (forwardExecute [⟨fun b => .ok b, fun r => .ok r, fun r => .ok r⟩]
        (decidePassthrough ["example.com:443"] ⟨.http, "internal.test", none⟩)
        0 0 (fun v => .ok v)).requestCount = 0 :=
  let h := allow_list_decision_and_passthrough_no_plugins.2.1
    ["example.com:443"] ⟨.http, "internal.test", none⟩
    [⟨fun b => .ok b, fun r => .ok r, fun r => .ok r⟩] 0 0 (fun v => .ok v)
    (by decide)
  ⟨h.1, h.2.1⟩

/-- C9: the expectation evaluation of execute_item unwraps `met`, which
is only ever set when both a protocol metric was captured and a
status-code predicate was declared; with a response-time-only
expectation (or with no captured metric) the evaluation panics instead
of producing the claimed Success/Failure/Unknown decision.  When both
status and metric are present the decision is Success exactly when the
status matches and, if declared, the response time is under the bound. -/
theorem expectation_evaluation_panics_without_status_predicate :
    evaluate_expectation ⟨none, some 100⟩ ⟨some (.http 200 3), 3⟩ = .panicked
    ∧ evaluate_expectation ⟨some 200, some 100⟩ ⟨none, 3⟩ = .panicked
    ∧ evaluate_expectation ⟨some 200, some 100⟩ ⟨some (.http 200 3), 3⟩
        = .decided .success
    ∧ evaluate_expectation ⟨some 200, some 100⟩ ⟨some (.http 200 3), 250⟩
        = .decided .failure
    ∧ evaluate_expectation ⟨some 404, none⟩ ⟨some (.http 200 3), 3⟩
        = .decided .failure
    ∧ (∀ (r : ItemExpectation) (metrics : ItemMetrics),
        r.status = none → evaluate_expectation r metrics = .panicked) := by
  have hle : (decide ((3 : ℚ) ≤ 100)) = true := by norm_num
  have hgt : (decide ((250 : ℚ) ≤ 100)) = false := by norm_num
  refine ⟨rfl, rfl, ?_, ?_, rfl, ?_⟩
  · simp [evaluate_expectation, hle]
  · simp [evaluate_expectation, hgt]
  · intro r metrics h
    cases hp : metrics.protocol with
    | none => simp [evaluate_expectation, hp, h]
    | some proto =>
        cases proto with
        | http code len => simp [evaluate_expectation, hp, h]

/-- Witness for the status-free expectation law at a concrete item. -/
theorem expectation_evaluation_panics_witness :
    evaluate_expectation ⟨none, none⟩ ⟨none, 0⟩ = .panicked :=
  expectation_evaluation_panics_without_status_predicate.2.2.2.2.2
    ⟨none, none⟩ ⟨none, 0⟩ rfl

/-- C10: a dropped packet-loss read completes `Ready(Ok)` with zero bytes
filled — observably identical to polling at end-of-stream — so the HTTP
response-body reassembly of apply_on_response stops at the first dropped
chunk: the rebuilt body is always an initial segment of the original and
a drop before exhaustion silently truncates it. -/
theorem packet_loss_reader_stream_truncation :
    (∀ (m : PacketLossModel) (s : MultiState) (u1 u2 : ℚ) (inner : Nat),
        (packetLossStep m s u1 u2).2 = true →
          packetLossPollRead m s u1 u2 inner = packetLossPollRead m s u1 u2 0
          ∧ (packetLossPollRead m s u1 u2 inner).2 = 0)
    ∧ (∀ (m : PacketLossModel) (us : List (ℚ × ℚ)) (s : MultiState)
          (body : List Nat) (cap : Nat),
        ∃ t, readerStreamReassemble m s us body cap ++ t = body)
    ∧ (∀ (m : PacketLossModel) (s : MultiState) (u1 u2 : ℚ) (us : List (ℚ × ℚ))
          (body : List Nat) (cap : Nat),
        (packetLossStep m s u1 u2).2 = true →
          readerStreamReassemble m s ((u1, u2) :: us) body cap = [])
    ∧ (readerStreamReassemble defaultPacketLoss .good [((99 : ℚ)/100, 1/100)]
          [1, 2, 3] 2 = []
       ∧ ([1, 2, 3] : List Nat) ≠ []) := by
  refine ⟨?_, readerStreamReassemble_append, ?_, ?_, by simp⟩
  · intro m s u1 u2 inner h
    constructor
    · simp [packetLossPollRead, h]
    · simp [packetLossPollRead, h]
  · intro m s u1 u2 us body cap h
    simp [readerStreamReassemble, h]
  · have hdrop : (packetLossStep defaultPacketLoss .good ((99 : ℚ)/100) (1/100)).2
        = true := by
      norm_num [packetLossStep, defaultPacketLoss, MultiState.to_index,
        nextStateIdx, nextStateIdxAux, MultiState.from_index]
    simp only [readerStreamReassemble]
    rw [hdrop]
    simp

/-- Witness for the truncation law: any poll whose chain decides to drop
ends the reassembly at once. -/
theorem packet_loss_reader_stream_truncation_witness :
    readerStreamReassemble defaultPacketLoss .bad [((1 : ℚ)/2, 1/10)] [7] 4 = [] :=
  packet_loss_reader_stream_truncation.2.2.1 defaultPacketLoss .bad (1/2) (1/10)
    [] [7] 4
    (by norm_num [packetLossStep, defaultPacketLoss, MultiState.to_index,
      nextStateIdx, nextStateIdxAux, MultiState.from_index])

end Lueur
